import Mathlib

/-
Verification of the message-history store and query pipeline of
oc_messengerhub (src/oc-messengerbot.ts).

Shallow embedding conventions:
- JS `Map` (insertion-ordered, set-in-place) is modelled as an association
  list `List (String × β)` with `listSet` keeping an existing key at its
  position and appending a fresh key at the tail.
- The per-platform message payloads are untyped (`any`) in the source; each
  platform stores a fixed record shape.  `StoredMsg` is the union of those
  record shapes (a field unused by a platform stays at its default), and the
  platform-conditional field reads of the source (`message.date`,
  `message.timestamp`, `message.text`, `message.content`, ...) become the
  accessors `msgTimestamp`, `msgText`, `msgChannelName`.
- Epoch-millisecond timestamps are `Int`.
-/

/-- The three platforms handled by the bot. -/
inductive Platform where
  | telegram
  | discord
  | slack
deriving DecidableEq, Repr

/-- Union of the per-platform stored message shapes (source lines 115-123,
174-182, 238-246).  `date` is Telegram's second-granularity timestamp;
`timestamp` is the Discord/Slack epoch-millisecond timestamp. -/
structure StoredMsg where
  id : Nat := 0
  date : Int := 0
  timestamp : Int := 0
  text : String := ""
  content : String := ""
  chatTitle : String := ""
  channelName : String := ""
  senderName : String := ""
  authorName : String := ""
  userName : String := ""
deriving DecidableEq, Repr

/-- JS `Map.set`: overwrite in place when the key exists (keeping its
insertion position), otherwise append at the tail. -/
def listSet {β : Type} (m : List (String × β)) (k : String) (v : β) :
    List (String × β) :=
  match m with
  | [] => [(k, v)]
  | (k2, v2) :: rest => if k2 = k then (k, v) :: rest else (k2, v2) :: listSet rest k v

/-- One platform's channel map: channelId to stored message list. -/
abbrev ChanMap := List (String × List StoredMsg)

/-- JS `Map.has`. -/
def mapHas (m : ChanMap) (k : String) : Bool :=
  (m.lookup k).isSome

/-- The slice of `UserConfig` (source lines 19-46) the verified core reads:
connection flags (truthiness of `platformClients.*`) and the three
per-platform message-history maps. -/
structure UserConfig where
  telegramConnected : Bool := false
  discordConnected : Bool := false
  slackConnected : Bool := false
  telegramHistory : ChanMap := []
  discordHistory : ChanMap := []
  slackHistory : ChanMap := []
deriving DecidableEq, Repr

/-- The global `users` map (source line 49). -/
abbrev Users := List (String × UserConfig)

/-- `user.messageHistory[platform]`. -/
def history (u : UserConfig) : Platform → ChanMap
  | Platform.telegram => u.telegramHistory
  | Platform.discord => u.discordHistory
  | Platform.slack => u.slackHistory

/-- Functional update of `user.messageHistory[platform]`. -/
def setHistory (u : UserConfig) (p : Platform) (h : ChanMap) : UserConfig :=
  match p with
  | Platform.telegram => { u with telegramHistory := h }
  | Platform.discord => { u with discordHistory := h }
  | Platform.slack => { u with slackHistory := h }

/-- Source line 50. -/
def MAX_HISTORY_PER_CHANNEL : Nat := 500

/-- Net effect of source lines 62-67 on one channel's list: push at the
tail, then shift the head when the length exceeds the limit. -/
def appendTrim (channelMessages : List StoredMsg) (message : StoredMsg) :
    List StoredMsg :=
  if (channelMessages ++ [message]).length > MAX_HISTORY_PER_CHANNEL then
    (channelMessages ++ [message]).tail
  else
    channelMessages ++ [message]

/-- `storeMessage` (source lines 53-68). -/
def storeMessage (users : Users) (userId : String) (platform : Platform)
    (channelId : String) (message : StoredMsg) : Users :=
  match users.lookup userId with
  | none => users
  | some user =>
    let hist0 := history user platform
    let hist1 := if mapHas hist0 channelId then hist0 else listSet hist0 channelId []
    let channelMessages := (hist1.lookup channelId).getD []
    listSet users userId
      (setHistory user platform (listSet hist1 channelId (appendTrim channelMessages message)))

/-- Read one channel's stored sequence (empty when the user or the channel
entry is absent). -/
def getChannel (users : Users) (userId : String) (p : Platform)
    (channelId : String) : List StoredMsg :=
  match users.lookup userId with
  | none => []
  | some user => ((history user p).lookup channelId).getD []

theorem lookup_listSet_self {β : Type} (m : List (String × β)) (k : String) (v : β) :
    (listSet m k v).lookup k = some v := by
  induction m with
  | nil => simp [listSet, List.lookup]
  | cons e rest ih =>
    obtain ⟨k2, v2⟩ := e
    by_cases h : k2 = k
    · simp [listSet, h, List.lookup]
    · have hne : (k == k2) = false := by
        simp [beq_eq_false_iff_ne]
        exact fun hk => h hk.symm
      simp [listSet, h, List.lookup, hne, ih]

theorem history_setHistory (u : UserConfig) (p : Platform) (h : ChanMap) :
    history (setHistory u p h) p = h := by
  cases p <;> simp [history, setHistory]

theorem tail_append_singleton_of_ne_nil {α : Type} (l : List α) (m : α)
    (h : l ≠ []) : (l ++ [m]).tail = l.tail ++ [m] := by
  cases l with
  | nil => exact absurd rfl h
  | cons a as => simp

theorem lookup_storeMessage_self (st : Users) (uid : String) (p : Platform)
    (c : String) (m : StoredMsg) (u : UserConfig) (hu : st.lookup uid = some u) :
    ∃ u2, (storeMessage st uid p c m).lookup uid = some u2 := by
  simp only [storeMessage, hu]
  exact ⟨_, lookup_listSet_self ..⟩

theorem getChannel_storeMessage_self (st : Users) (uid : String) (p : Platform)
    (c : String) (m : StoredMsg) (u : UserConfig) (hu : st.lookup uid = some u) :
    getChannel (storeMessage st uid p c m) uid p c = appendTrim (getChannel st uid p c) m := by
  simp only [storeMessage, getChannel, hu]
  rw [lookup_listSet_self]
  dsimp only
  rw [history_setHistory, lookup_listSet_self]
  simp only [Option.getD_some]
  by_cases h : mapHas (history u p) c
  · rw [if_pos h]
  · rw [if_neg h, lookup_listSet_self]
    have hn : (history u p).lookup c = none := by
      unfold mapHas at h
      exact Option.not_isSome_iff_eq_none.mp h
    rw [hn]
    rfl

theorem getChannel_foldl_store (uid : String) (p : Platform) (c : String)
    (ms : List StoredMsg) :
    ∀ (st : Users) (u : UserConfig), st.lookup uid = some u →
      getChannel (ms.foldl (fun s m => storeMessage s uid p c m) st) uid p c
        = ms.foldl appendTrim (getChannel st uid p c) := by
  induction ms with
  | nil => intro st u hu; simp
  | cons m rest ih =>
    intro st u hu
    simp only [List.foldl_cons]
    obtain ⟨u2, hu2⟩ := lookup_storeMessage_self st uid p c m u hu
    rw [ih (storeMessage st uid p c m) u2 hu2]
    rw [getChannel_storeMessage_self st uid p c m u hu]

theorem foldl_appendTrim_drop (ms : List StoredMsg) :
    ms.foldl appendTrim [] = ms.drop (ms.length - MAX_HISTORY_PER_CHANNEL) := by
  induction ms using List.reverseRecOn with
  | nil => rfl
  | append_singleton l m ih =>
    rw [List.foldl_append, List.foldl_cons, List.foldl_nil, ih]
    have hM : MAX_HISTORY_PER_CHANNEL = 500 := rfl
    by_cases h : l.length < MAX_HISTORY_PER_CHANNEL
    · have h0 : l.length - MAX_HISTORY_PER_CHANNEL = 0 := by omega
      have h1 : (l ++ [m]).length - MAX_HISTORY_PER_CHANNEL = 0 := by
        simp only [List.length_append, List.length_singleton]; omega
      have hlen : ¬ (l ++ [m]).length > MAX_HISTORY_PER_CHANNEL := by
        simp only [List.length_append, List.length_singleton]; omega
      rw [h0, h1, List.drop_zero, List.drop_zero]
      unfold appendTrim
      rw [if_neg hlen]
    · have hge : MAX_HISTORY_PER_CHANNEL ≤ l.length := by omega
      have hdlen : (l.drop (l.length - MAX_HISTORY_PER_CHANNEL)).length
          = MAX_HISTORY_PER_CHANNEL := by
        rw [List.length_drop]; omega
      have hdne : l.drop (l.length - MAX_HISTORY_PER_CHANNEL) ≠ [] := by
        intro he
        rw [he] at hdlen
        exact absurd hdlen.symm (by decide)
      have hover : (l.drop (l.length - MAX_HISTORY_PER_CHANNEL) ++ [m]).length
          > MAX_HISTORY_PER_CHANNEL := by
        simp only [List.length_append, List.length_singleton, hdlen]; omega
      unfold appendTrim
      rw [if_pos hover]
      have hle : l.length + 1 - MAX_HISTORY_PER_CHANNEL ≤ l.length := by omega
      have hr : (l ++ [m]).length - MAX_HISTORY_PER_CHANNEL
          = l.length + 1 - MAX_HISTORY_PER_CHANNEL := by
        simp only [List.length_append, List.length_singleton]
      rw [hr, List.drop_append_of_le_length hle]
      rw [tail_append_singleton_of_ne_nil _ _ hdne]
      have harg : l.length - MAX_HISTORY_PER_CHANNEL + 1
          = l.length + 1 - MAX_HISTORY_PER_CHANNEL := by omega
      rw [List.tail_drop, harg]

/-- C1: bounded FIFO retention.  For a user present in the store, folding N
calls of `storeMessage` on one `(platform, channelId)` starting from an empty
channel leaves exactly the last `min(N, 500)` appended messages in arrival
order, with length `min(N, 500)`; moreover every single append either keeps
the whole list (length within the limit) or evicts exactly the head. -/
theorem claim_C1 (st : Users) (uid : String) (p : Platform) (c : String)
    (u : UserConfig) (hu : st.lookup uid = some u) (ms : List StoredMsg)
    (hc : getChannel st uid p c = []) :
    getChannel (ms.foldl (fun s m => storeMessage s uid p c m) st) uid p c
        = ms.drop (ms.length - MAX_HISTORY_PER_CHANNEL)
    ∧ (getChannel (ms.foldl (fun s m => storeMessage s uid p c m) st) uid p c).length
        = min ms.length MAX_HISTORY_PER_CHANNEL
    ∧ (∀ (st2 : Users) (u2 : UserConfig) (m : StoredMsg), st2.lookup uid = some u2 →
        getChannel (storeMessage st2 uid p c m) uid p c
          = (if MAX_HISTORY_PER_CHANNEL ≤ (getChannel st2 uid p c).length
             then (getChannel st2 uid p c).tail
             else getChannel st2 uid p c) ++ [m]) := by
  have hmain : getChannel (ms.foldl (fun s m => storeMessage s uid p c m) st) uid p c
      = ms.drop (ms.length - MAX_HISTORY_PER_CHANNEL) := by
    rw [getChannel_foldl_store uid p c ms st u hu, hc, foldl_appendTrim_drop]
  refine ⟨hmain, ?_, ?_⟩
  · rw [hmain, List.length_drop]
    omega
  · intro st2 u2 m hu2
    rw [getChannel_storeMessage_self st2 uid p c m u2 hu2]
    generalize getChannel st2 uid p c = l
    by_cases h : MAX_HISTORY_PER_CHANNEL ≤ l.length
    · have hne : l ≠ [] := by
        intro he
        rw [he] at h
        exact absurd h (by decide)
      have hover : (l ++ [m]).length > MAX_HISTORY_PER_CHANNEL := by
        simp only [List.length_append, List.length_singleton]; omega
      unfold appendTrim
      rw [if_pos hover, if_pos h, tail_append_singleton_of_ne_nil l m hne]
    · have hsmall : ¬ (l ++ [m]).length > MAX_HISTORY_PER_CHANNEL := by
        simp only [List.length_append, List.length_singleton]; omega
      unfold appendTrim
      rw [if_neg hsmall, if_neg h]

def wUserC1 : UserConfig := {}

def wStoreC1 : Users := [("u1", wUserC1)]

def wMsgA : StoredMsg := { id := 1 }

def wMsgB : StoredMsg := { id := 2 }

theorem claim_C1_witness :
    getChannel ([wMsgA, wMsgB].foldl
        (fun s m => storeMessage s "u1" Platform.telegram "general" m) wStoreC1)
      "u1" Platform.telegram "general" = [wMsgA, wMsgB] := by
  have h := claim_C1 wStoreC1 "u1" Platform.telegram "general" wUserC1 rfl
      [wMsgA, wMsgB] rfl
  rw [h.1]
  rfl

/-- C10: `storeMessage` for a userId absent from the users map is a silent
no-op: the store is returned unchanged and every user's history is
untouched. -/
theorem claim_C10 (st : Users) (uid : String) (p : Platform) (c : String)
    (m : StoredMsg) (h : st.lookup uid = none) :
    storeMessage st uid p c m = st
    ∧ ∀ uid2 p2 c2, getChannel (storeMessage st uid p c m) uid2 p2 c2
        = getChannel st uid2 p2 c2 := by
  have hs : storeMessage st uid p c m = st := by
    simp only [storeMessage, h]
  exact ⟨hs, fun _ _ _ => by rw [hs]⟩

theorem claim_C10_witness :
    storeMessage [] "absent" Platform.telegram "general" {} = ([] : Users) :=
  (claim_C10 [] "absent" Platform.telegram "general" {} rfl).1

/-- JS `String.prototype.toLowerCase` (ASCII inputs), computed on the
character list so that it evaluates inside the kernel. -/
def jsToLower (s : String) : String :=
  (s.toList.map Char.toLower).asString

/-- Scan for `pat` as a contiguous run: true when `pat` is a prefix of the
scanned list or of one of its suffixes. -/
def subSearch (pat : List Char) : List Char → Bool
  | [] => pat.isEmpty
  | c :: rest => pat.isPrefixOf (c :: rest) || subSearch pat rest

/-- JS `String.prototype.includes`: substring containment. -/
def jsIncludes (s sub : String) : Bool :=
  subSearch sub.toList s.toList

/-- Time-range keyword table (source lines 1019-1024), in declaration
order. -/
def timeKeywords : List (String × List String) :=
  [("recent", ["recent", "latest", "last", "newest"]),
   ("today", ["today", "this day"]),
   ("yesterday", ["yesterday", "past day"]),
   ("thisWeek", ["this week", "past week", "last 7 days"])]

/-- The detection loop of source lines 1043-1050: walk the entries in
declaration order, return the first range whose keyword list matches the
lowercased query, defaulting to "recent". -/
def detectTimeRangeLoop (entries : List (String × List String)) (query : String) :
    String :=
  match entries with
  | [] => "recent"
  | (range, keywords) :: rest =>
    if keywords.any (fun keyword => jsIncludes (jsToLower query) keyword) then range
    else detectTimeRangeLoop rest query

/-- Detected time range for a query (source lines 1042-1050). -/
def detectTimeRange (query : String) : String :=
  detectTimeRangeLoop timeKeywords query

theorem detectTimeRangeLoop_eq_find (entries : List (String × List String))
    (q : String) :
    detectTimeRangeLoop entries q
      = (((entries.find? (fun e => e.2.any (fun k => jsIncludes (jsToLower q) k))).map
          Prod.fst).getD "recent") := by
  induction entries with
  | nil => rfl
  | cons e rest ih =>
    obtain ⟨r, kws⟩ := e
    by_cases h : (kws.any (fun k => jsIncludes (jsToLower q) k)) = true
    · simp [detectTimeRangeLoop, h]
    · simp only [Bool.not_eq_true] at h
      simp [detectTimeRangeLoop, h, ih]

/-- C4: time ranges are evaluated in the fixed order
recent, today, yesterday, thisWeek by substring match of each keyword list
against the lowercased query; the first match wins (formalized: the loop
equals `List.find?` over the table), no match defaults to recent, and the
tie-break example "show me today and yesterday" detects today even though
the yesterday list also matches. -/
theorem claim_C4 :
    (∀ q : String, detectTimeRange q
        = (((timeKeywords.find? (fun e => e.2.any (fun k => jsIncludes (jsToLower q) k))).map
            Prod.fst).getD "recent"))
    ∧ (∀ q : String,
        (∀ e ∈ timeKeywords, ∀ k ∈ e.2, jsIncludes (jsToLower q) k = false) →
        detectTimeRange q = "recent")
    ∧ timeKeywords.map Prod.fst = ["recent", "today", "yesterday", "thisWeek"]
    ∧ detectTimeRange "show me today and yesterday" = "today"
    ∧ (["yesterday", "past day"].any fun k =>
        jsIncludes (jsToLower "show me today and yesterday") k) = true := by
  refine ⟨fun q => detectTimeRangeLoop_eq_find timeKeywords q, ?_, by decide, by decide, by decide⟩
  intro q h
  rw [detectTimeRange, detectTimeRangeLoop_eq_find]
  have hnone : timeKeywords.find? (fun e => e.2.any (fun k => jsIncludes (jsToLower q) k))
      = none := by
    rw [List.find?_eq_none]
    intro e he
    simp only [List.any_eq_true, not_exists]
    intro k hk
    have hf := h e he k hk.1
    rw [hf] at hk
    exact Bool.false_ne_true hk.2
  rw [hnone]
  rfl

theorem claim_C4_witness :
    detectTimeRange "zzz" = "recent" :=
  claim_C4.2.1 "zzz" (by decide)

/-- C9 counterexample: the query "yesterday" contains "yesterday" and none
of the recent-keywords, yet `detectTimeRange` assigns it "yesterday", not
"today" (the keyword "today" is not a substring of "yesterday"), refuting
the claim that such queries always get today. -/
theorem claim_C9_counterexample :
    jsIncludes (jsToLower "yesterday") "yesterday" = true
    ∧ jsIncludes (jsToLower "yesterday") "recent" = false
    ∧ jsIncludes (jsToLower "yesterday") "latest" = false
    ∧ jsIncludes (jsToLower "yesterday") "last" = false
    ∧ jsIncludes (jsToLower "yesterday") "newest" = false
    ∧ detectTimeRange "yesterday" = "yesterday" := by decide

/-- C9 (amended): a query whose lowercased text contains "yesterday" and
none of the recent-keywords is assigned timeRange = yesterday provided it
also contains neither "today" nor "this day"; only when a today-keyword is
additionally present does the earlier-declared today range win.  The
yesterday range is therefore directly reachable via "yesterday" itself. -/
theorem claim_C9 (q : String)
    (hy : jsIncludes (jsToLower q) "yesterday" = true)
    (hr : ∀ k ∈ ["recent", "latest", "last", "newest"], jsIncludes (jsToLower q) k = false)
    (ht : ∀ k ∈ ["today", "this day"], jsIncludes (jsToLower q) k = false) :
    detectTimeRange q = "yesterday" := by
  have e1 := hr "recent" (by simp)
  have e2 := hr "latest" (by simp)
  have e3 := hr "last" (by simp)
  have e4 := hr "newest" (by simp)
  have f1 := ht "today" (by simp)
  have f2 := ht "this day" (by simp)
  simp [detectTimeRange, timeKeywords, detectTimeRangeLoop, e1, e2, e3, e4, f1, f2, hy]

theorem claim_C9_witness :
    detectTimeRange "was it yesterday" = "yesterday" :=
  claim_C9 "was it yesterday" (by decide) (by decide) (by decide)

/-- One day in epoch milliseconds. -/
def DAY_MS : Int := 24 * 60 * 60 * 1000

/-- Fixed-offset model of JS local time: `Date.prototype.setHours(0,0,0,0)`
maps an instant `now` to the start of its local day, where `off` is the
fixed UTC offset of the environment's timezone in milliseconds (no DST). -/
def startOfLocalDay (off now : Int) : Int :=
  now - (now + off) % DAY_MS

/-- Cutoff computation of `searchMessages` (source lines 1106-1128), in the
fixed-offset local-time model: `Date.setDate(getDate() - k)` keeps the
time of day and moves back k calendar days, i.e. subtracts `k * DAY_MS`. -/
def computeCutoff (off now : Int) (timeRange : String) : Int :=
  if timeRange = "today" then startOfLocalDay off now
  else if timeRange = "yesterday" then startOfLocalDay off (now - DAY_MS)
  else if timeRange = "thisWeek" then now - 7 * DAY_MS
  else now - DAY_MS

/-- C6: cutoff semantics.  For `today` the cutoff is the start of the
current local day (a local midnight at most one day in the past, not after
`now`); for `yesterday` it is exactly one day before that (the start of the
previous local day); for `thisWeek` it is exactly `now - 7*24h`
(not day-aligned); and every other range string - in particular the default
`recent` - yields exactly `now - 24h`. -/
theorem claim_C6 (off now : Int) :
    (computeCutoff off now "today" ≤ now
      ∧ now - computeCutoff off now "today" < DAY_MS
      ∧ (computeCutoff off now "today" + off) % DAY_MS = 0)
    ∧ computeCutoff off now "yesterday" = computeCutoff off now "today" - DAY_MS
    ∧ computeCutoff off now "thisWeek" = now - 7 * DAY_MS
    ∧ computeCutoff off now "recent" = now - DAY_MS
    ∧ (∀ tr : String, tr ≠ "today" → tr ≠ "yesterday" → tr ≠ "thisWeek" →
        computeCutoff off now tr = now - DAY_MS) := by
  refine ⟨⟨?_, ?_, ?_⟩, ?_, by rfl, by rfl, ?_⟩
  · show startOfLocalDay off now ≤ now
    unfold startOfLocalDay DAY_MS
    omega
  · show now - startOfLocalDay off now < DAY_MS
    unfold startOfLocalDay DAY_MS
    omega
  · show (startOfLocalDay off now + off) % DAY_MS = 0
    unfold startOfLocalDay DAY_MS
    omega
  · show startOfLocalDay off (now - DAY_MS) = startOfLocalDay off now - DAY_MS
    unfold startOfLocalDay DAY_MS
    omega
  · intro tr h1 h2 h3
    unfold computeCutoff
    rw [if_neg h1, if_neg h2, if_neg h3]

theorem claim_C6_witness :
    computeCutoff 0 (5 * DAY_MS + 123) "sometime last week" = 5 * DAY_MS + 123 - DAY_MS :=
  (claim_C6 0 (5 * DAY_MS + 123)).2.2.2.2 "sometime last week"
    (by decide) (by decide) (by decide)

/-- Platform-conditional timestamp read (source lines 1170-1174): Telegram
stores seconds and is scaled by 1000, Discord/Slack store milliseconds. -/
def msgTimestamp (p : Platform) (message : StoredMsg) : Int :=
  match p with
  | Platform.telegram => message.date * 1000
  | Platform.discord => message.timestamp
  | Platform.slack => message.timestamp

/-- Platform-conditional text read (source lines 1180-1183). -/
def msgText (p : Platform) (message : StoredMsg) : String :=
  match p with
  | Platform.telegram => message.text
  | Platform.discord => message.content
  | Platform.slack => message.text

/-- Channel display name taken from the first stored message
(source lines 1142-1145 and 1163-1166). -/
def msgChannelName (p : Platform) (messages : List StoredMsg) : String :=
  match messages with
  | [] => ""
  | m :: _ =>
    match p with
    | Platform.telegram => m.chatTitle
    | Platform.discord => m.channelName
    | Platform.slack => m.channelName

/-- Channel candidate list (source lines 1133-1153): all tracked channel
ids, restricted - when hints are present - to channels with at least one
stored message whose name contains a hint case-insensitively or whose id
equals a hint exactly. -/
def candidateChannels (hist : ChanMap) (p : Platform) (channelHints : List String) :
    List String :=
  let channelsToSearch := hist.map Prod.fst
  if channelHints.length > 0 then
    channelsToSearch.filter (fun channelId =>
      let messages := (hist.lookup channelId).getD []
      if messages.length = 0 then false
      else
        channelHints.any (fun hint =>
          jsIncludes (jsToLower (msgChannelName p messages)) (jsToLower hint)
            || channelId == hint))
  else channelsToSearch

/-- One message's filter predicate (source lines 1169-1192): in time range
(inclusive cutoff), and - unless no keywords were extracted - containing at
least one keyword case-insensitively. -/
def msgMatches (p : Platform) (cutoffTime : Int) (keywords : List String)
    (message : StoredMsg) : Bool :=
  if msgTimestamp p message < cutoffTime then false
  else if keywords.length = 0 then true
  else keywords.any (fun keyword =>
    jsIncludes (jsToLower (msgText p message)) (jsToLower keyword))

/-- The per-platform search result entry (source lines 1098-1104). -/
structure ChannelResult where
  messages : List StoredMsg
  channelId : String
  channelName : String
deriving DecidableEq, Repr

/-- Search of one candidate channel (source lines 1156-1203): skip empty
channels, filter by `msgMatches`, keep the channel only when at least one
message matches. -/
def channelSearch (hist : ChanMap) (p : Platform) (keywords : List String)
    (cutoffTime : Int) (channelId : String) : Option ChannelResult :=
  let messages := (hist.lookup channelId).getD []
  if messages.length = 0 then none
  else
    let matchingMessages := messages.filter (msgMatches p cutoffTime keywords)
    if matchingMessages.length > 0 then
      some { messages := matchingMessages, channelId := channelId,
             channelName := msgChannelName p messages }
    else none

/-- `searchMessages` (source lines 1086-1207) for one platform. -/
def searchMessages (hist : ChanMap) (p : Platform) (keywords channelHints : List String)
    (timeRange : String) (off now : Int) : List ChannelResult :=
  let cutoffTime := computeCutoff off now timeRange
  (candidateChannels hist p channelHints).filterMap
    (channelSearch hist p keywords cutoffTime)

theorem msgMatches_iff (p : Platform) (cutoffTime : Int) (keywords : List String)
    (m : StoredMsg) :
    msgMatches p cutoffTime keywords m = true ↔
      (cutoffTime ≤ msgTimestamp p m
        ∧ (keywords = []
            ∨ ∃ k ∈ keywords,
                jsIncludes (jsToLower (msgText p m)) (jsToLower k) = true)) := by
  unfold msgMatches
  by_cases ht : msgTimestamp p m < cutoffTime
  · rw [if_pos ht]
    constructor
    · intro hf
      exact absurd hf Bool.false_ne_true
    · intro hc
      omega
  · rw [if_neg ht]
    by_cases hk : keywords.length = 0
    · rw [if_pos hk]
      constructor
      · intro _
        exact ⟨by omega, Or.inl (List.length_eq_zero.mp hk)⟩
      · intro _
        rfl
    · rw [if_neg hk]
      rw [List.any_eq_true]
      constructor
      · rintro ⟨k, hkmem, hkinc⟩
        exact ⟨by omega, Or.inr ⟨k, hkmem, hkinc⟩⟩
      · rintro ⟨-, hc⟩
        cases hc with
        | inl he =>
          rw [he] at hk
          exact absurd rfl hk
        | inr hex => exact hex

/-- C7: search filter semantics.  A message matches exactly when its
timestamp is at least the cutoff and the keyword set is empty or some
keyword occurs case-insensitively in its text; a candidate channel appears
in the search result exactly when it has at least one matching message; and
every result entry carries exactly the filtered message subset of its
channel. -/
theorem claim_C7 (hist : ChanMap) (p : Platform) (keywords channelHints : List String)
    (timeRange : String) (off now : Int) (channelId : String) :
    (∀ m : StoredMsg,
        msgMatches p (computeCutoff off now timeRange) keywords m = true ↔
          (computeCutoff off now timeRange ≤ msgTimestamp p m
            ∧ (keywords = []
                ∨ ∃ k ∈ keywords,
                    jsIncludes (jsToLower (msgText p m)) (jsToLower k) = true)))
    ∧ (channelId ∈ candidateChannels hist p channelHints →
        ((∃ r ∈ searchMessages hist p keywords channelHints timeRange off now,
            r.channelId = channelId)
          ↔ ∃ m ∈ (hist.lookup channelId).getD [],
              msgMatches p (computeCutoff off now timeRange) keywords m = true))
    ∧ (∀ r ∈ searchMessages hist p keywords channelHints timeRange off now,
        r.messages = ((hist.lookup r.channelId).getD []).filter
          (msgMatches p (computeCutoff off now timeRange) keywords)) := by
  refine ⟨fun m => msgMatches_iff p _ keywords m, ?_, ?_⟩
  · intro hcand
    constructor
    · rintro ⟨r, hr, hcid⟩
      obtain ⟨cid2, hc2, hf⟩ := List.mem_filterMap.mp hr
      unfold channelSearch at hf
      by_cases h0 : ((hist.lookup cid2).getD []).length = 0
      · rw [if_pos h0] at hf
        exact absurd hf (Option.noConfusion)
      · rw [if_neg h0] at hf
        by_cases h1 : (((hist.lookup cid2).getD []).filter
            (msgMatches p (computeCutoff off now timeRange) keywords)).length > 0
        · rw [if_pos h1] at hf
          have hreq := Option.some.inj hf
          have hcc : cid2 = channelId := by
            rw [← hcid, ← hreq]
          have hfe : ((hist.lookup cid2).getD []).filter
              (msgMatches p (computeCutoff off now timeRange) keywords) ≠ [] := by
            intro he
            rw [he] at h1
            simp at h1
          obtain ⟨m, hm⟩ := List.exists_mem_of_ne_nil _ hfe
          have hm2 := List.mem_filter.mp hm
          refine ⟨m, ?_, hm2.2⟩
          rw [← hcc]
          exact hm2.1
        · rw [if_neg h1] at hf
          exact absurd hf (Option.noConfusion)
    · rintro ⟨m, hm, hmatch⟩
      have hne : (hist.lookup channelId).getD [] ≠ [] := List.ne_nil_of_mem hm
      have h0 : ¬ ((hist.lookup channelId).getD []).length = 0 := by
        rw [List.length_eq_zero]
        exact hne
      have hmf : m ∈ ((hist.lookup channelId).getD []).filter
          (msgMatches p (computeCutoff off now timeRange) keywords) :=
        List.mem_filter.mpr ⟨hm, hmatch⟩
      have h1 : (((hist.lookup channelId).getD []).filter
          (msgMatches p (computeCutoff off now timeRange) keywords)).length > 0 :=
        List.length_pos.mpr (List.ne_nil_of_mem hmf)
      have hcs : channelSearch hist p keywords (computeCutoff off now timeRange) channelId
          = some { messages := ((hist.lookup channelId).getD []).filter
                     (msgMatches p (computeCutoff off now timeRange) keywords),
                   channelId := channelId,
                   channelName := msgChannelName p ((hist.lookup channelId).getD []) } := by
        unfold channelSearch
        rw [if_neg h0, if_pos h1]
      exact ⟨_, List.mem_filterMap.mpr ⟨channelId, hcand, hcs⟩, rfl⟩
  · intro r hr
    obtain ⟨cid2, hc2, hf⟩ := List.mem_filterMap.mp hr
    unfold channelSearch at hf
    by_cases h0 : ((hist.lookup cid2).getD []).length = 0
    · rw [if_pos h0] at hf
      exact absurd hf (Option.noConfusion)
    · rw [if_neg h0] at hf
      by_cases h1 : (((hist.lookup cid2).getD []).filter
          (msgMatches p (computeCutoff off now timeRange) keywords)).length > 0
      · rw [if_pos h1] at hf
        have hreq := Option.some.inj hf
        rw [← hreq]
      · rw [if_neg h1] at hf
        exact absurd hf (Option.noConfusion)

/-- C8: channel-hint restriction.  A channel id is a candidate exactly when
it is tracked and either no hints were given (all tracked channels are
candidates) or the channel is non-empty and its first stored message's
channel-name field contains some hint case-insensitively or its id equals
some hint exactly; empty channels never pass hint matching. -/
theorem claim_C8 (hist : ChanMap) (p : Platform) (channelHints : List String)
    (channelId : String) :
    channelId ∈ candidateChannels hist p channelHints ↔
      (channelId ∈ hist.map Prod.fst
        ∧ (channelHints = []
            ∨ ((hist.lookup channelId).getD [] ≠ []
                ∧ ∃ hint ∈ channelHints,
                    (jsIncludes (jsToLower (msgChannelName p ((hist.lookup channelId).getD [])))
                        (jsToLower hint) = true
                      ∨ channelId = hint)))) := by
  by_cases hh : channelHints = []
  · subst hh
    simp [candidateChannels]
  · have hlen : channelHints.length > 0 := List.length_pos.mpr hh
    unfold candidateChannels
    rw [if_pos hlen, List.mem_filter]
    constructor
    · rintro ⟨hmem, hpred⟩
      refine ⟨hmem, Or.inr ?_⟩
      by_cases h0 : ((hist.lookup channelId).getD []).length = 0
      · rw [if_pos h0] at hpred
        exact absurd hpred Bool.false_ne_true
      · rw [if_neg h0] at hpred
        refine ⟨by intro he; exact h0 (by rw [he]; rfl), ?_⟩
        obtain ⟨hint, hhm, hht⟩ := List.any_eq_true.mp hpred
        rw [Bool.or_eq_true] at hht
        refine ⟨hint, hhm, ?_⟩
        cases hht with
        | inl hinc => exact Or.inl hinc
        | inr heq => exact Or.inr (by exact eq_of_beq heq)
    · rintro ⟨hmem, hrest⟩
      refine ⟨hmem, ?_⟩
      cases hrest with
      | inl he => exact absurd he hh
      | inr hc =>
        obtain ⟨hne, hint, hhm, hht⟩ := hc
        have h0 : ¬ ((hist.lookup channelId).getD []).length = 0 := by
          rw [List.length_eq_zero]
          exact hne
        rw [if_neg h0]
        refine List.any_eq_true.mpr ⟨hint, hhm, ?_⟩
        rw [Bool.or_eq_true]
        cases hht with
        | inl hinc => exact Or.inl hinc
        | inr heq => exact Or.inr (by rw [heq]; exact beq_self_eq_true hint)

def wMsgC7 : StoredMsg := { timestamp := 2 * 86400000, content := "hello world", channelName := "general" }

def wHistC7 : ChanMap := [("general", [wMsgC7])]

theorem claim_C7_witness :
    ∃ r ∈ searchMessages wHistC7 Platform.discord ["hello"] [] "recent" 0 (2 * 86400000),
      r.channelId = "general" := by
  have h := claim_C7 wHistC7 Platform.discord ["hello"] [] "recent" 0 (2 * 86400000) "general"
  exact (h.2.1 (by decide)).mpr (by decide)

def wMsgC8 : StoredMsg := { channelName := "general-chat" }

def wHistC8 : ChanMap := [("chanX", [wMsgC8])]

theorem claim_C8_witness :
    "chanX" ∈ candidateChannels wHistC8 Platform.slack ["GEN"] :=
  (claim_C8 wHistC8 Platform.slack ["GEN"] "chanX").mpr (by decide)

/-- Platform keyword table (source lines 1013-1017), in declaration
order. -/
def platformKeywords : List (Platform × List String) :=
  [(Platform.telegram, ["telegram", "tg"]),
   (Platform.discord, ["discord", "dc", "server"]),
   (Platform.slack, ["slack", "sl"])]

/-- Platform detection loop (source lines 1027-1033): a platform is
included when any of its keywords occurs in the lowercased query. -/
def detectPlatforms (query : String) : List Platform :=
  (platformKeywords.filter (fun e =>
    e.2.any (fun keyword => jsIncludes (jsToLower query) keyword))).map Prod.fst

/-- The stopword set of source lines 1053-1060. -/
def commonWords : List String :=
  ["the", "and", "a", "an", "in", "on", "at", "from", "to", "with", "by", "about",
   "for", "of", "as", "what", "who", "when", "where", "why", "how", "did", "does",
   "do", "is", "are", "was", "were", "be", "been", "being", "have", "has", "had",
   "can", "could", "will", "would", "shall", "should", "may", "might", "must",
   "that", "this", "these", "those", "it", "they", "them", "their", "there",
   "show", "tell", "find", "get", "see", "look", "search"]

/-- The stripped punctuation class of the regex at source line 1063
(codes for  . , / # ! $ % ^ & * ; : braces = - _ backtick ~ ( )  ). -/
def punctChars : List Char :=
  [46, 44, 47, 35, 33, 36, 37, 94, 38, 42, 59, 58, 123, 125,
   61, 45, 95, 96, 126, 40, 41].map Char.ofNat

/-- Split at every whitespace character (JS `split(/\s+/)` differs only by
collapsing runs into one separator, producing extra empty tokens here; the
later length filter removes empty tokens either way). -/
def splitWsChars : List Char → List (List Char)
  | [] => [[]]
  | c :: rest =>
    let r := splitWsChars rest
    if c.isWhitespace then [] :: r
    else (c :: r.headD []) :: r.tail

/-- Keyword extraction (source lines 1062-1065): lowercase, strip the
punctuation class, split on whitespace, keep tokens longer than 2 that are
not stopwords. -/
def extractKeywords (query : String) : List String :=
  ((splitWsChars ((jsToLower query).toList.filter
      (fun ch => !(punctChars.contains ch)))).map List.asString).filter
    (fun word => decide (word.length > 2) && !(commonWords.contains word))

/-- Character class `[a-zA-Z0-9_-]` of the channel regex (source
line 1071). -/
def isChannelChar (c : Char) : Bool :=
  c.isAlphanum || c == Char.ofNat 95 || c == Char.ofNat 45

/-- Left-to-right global scan of the regex `#([a-zA-Z0-9_-]+)` (source
lines 1071-1076), emitting each match without its leading hash.  The scan
consumes at least one character per step, so running it with the list
length as structural fuel is exact. -/
def scanHashTagsFuel : Nat → List Char → List String
  | 0, _ => []
  | _, [] => []
  | fuel + 1, c :: rest =>
    if c == Char.ofNat 35 then
      let run := rest.takeWhile isChannelChar
      if run.length > 0 then run.asString :: scanHashTagsFuel fuel (rest.drop run.length)
      else scanHashTagsFuel fuel rest
    else scanHashTagsFuel fuel rest

def scanHashTags (l : List Char) : List String :=
  scanHashTagsFuel l.length l

/-- Left-to-right global scan of the quoted-name regex (source
lines 1079-1083): a non-empty run between two equal quote characters
(double or single) emits its inner text; an unmatched or empty quote
advances one character, as the regex engine does.  Fueled like
`scanHashTagsFuel`. -/
def scanQuotedFuel : Nat → List Char → List String
  | 0, _ => []
  | _, [] => []
  | fuel + 1, c :: rest =>
    if c == Char.ofNat 34 || c == Char.ofNat 39 then
      match rest.findIdx? (fun x => x == c) with
      | some j =>
        if 0 < j then (rest.take j).asString :: scanQuotedFuel fuel (rest.drop (j + 1))
        else scanQuotedFuel fuel rest
      | none => scanQuotedFuel fuel rest
    else scanQuotedFuel fuel rest

def scanQuoted (l : List Char) : List String :=
  scanQuotedFuel l.length l

/-- Channel mention extraction (source lines 1067-1083): hash-tag matches
first, then quoted names. -/
def extractChannelMentions (query : String) : List String :=
  scanHashTags query.toList ++ scanQuoted query.toList

theorem mem_of_lookup_eq_some {β : Type} {m : List (String × β)} {k : String}
    {v : β} (h : m.lookup k = some v) : (k, v) ∈ m := by
  induction m with
  | nil => simp [List.lookup] at h
  | cons e rest ih =>
    obtain ⟨k2, v2⟩ := e
    simp only [List.lookup] at h
    cases hkk : (k == k2) with
    | true =>
      rw [hkk] at h
      simp only [Option.some.injEq] at h
      have hk : k = k2 := eq_of_beq hkk
      rw [hk, ← h]
      exact List.mem_cons_self _ _
    | false =>
      rw [hkk] at h
      exact List.mem_cons_of_mem _ (ih h)

/-- C5 counterexample: for the query "recent discord activity" the platform
discord is detected and no stored message contains the literal substring
"discord", yet the search is non-empty - a message containing "activity"
matches, because every extracted keyword (not only "discord") acts as a
text filter. -/
def cMsgC5 : StoredMsg :=
  { timestamp := 200000000, content := "activity", channelName := "random" }

def cHistC5 : ChanMap := [("chan1", [cMsgC5])]

theorem claim_C5_counterexample :
    detectPlatforms "recent discord activity" = [Platform.discord]
    ∧ extractKeywords "recent discord activity" = ["recent", "discord", "activity"]
    ∧ jsIncludes (jsToLower (msgText Platform.discord cMsgC5)) "discord" = false
    ∧ searchMessages cHistC5 Platform.discord
        (extractKeywords "recent discord activity")
        (extractChannelMentions "recent discord activity")
        (detectTimeRange "recent discord activity") 0 200000000 ≠ [] := by decide

/-- C5 (amended): platform and time trigger words survive into the
extracted keywords - for "recent discord activity" the keyword set is
exactly recent, discord, activity, and platform discord is detected; when
no stored message text contains any of these three keywords
case-insensitively (not merely "discord"), the search yields zero
matches. -/
theorem claim_C5 (hist : ChanMap) (hints : List String) (timeRange : String)
    (off now : Int)
    (hno : ∀ e ∈ hist, ∀ m ∈ e.2, ∀ k ∈ extractKeywords "recent discord activity",
        jsIncludes (jsToLower (msgText Platform.discord m)) (jsToLower k) = false) :
    detectPlatforms "recent discord activity" = [Platform.discord]
    ∧ extractKeywords "recent discord activity" = ["recent", "discord", "activity"]
    ∧ searchMessages hist Platform.discord (extractKeywords "recent discord activity")
        hints timeRange off now = [] := by
  refine ⟨by decide, by decide, ?_⟩
  unfold searchMessages
  apply List.filterMap_eq_nil_iff.mpr
  intro cid hcid
  unfold channelSearch
  by_cases h0 : ((hist.lookup cid).getD []).length = 0
  · rw [if_pos h0]
  · rw [if_neg h0]
    have hmem : ∀ m ∈ (hist.lookup cid).getD [],
        ∀ k ∈ extractKeywords "recent discord activity",
        jsIncludes (jsToLower (msgText Platform.discord m)) (jsToLower k) = false := by
      intro m hm
      cases hl : hist.lookup cid with
      | none => rw [hl] at hm; simp at hm
      | some l =>
        rw [hl] at hm
        exact hno (cid, l) (mem_of_lookup_eq_some hl) m hm
    have hfilter : ((hist.lookup cid).getD []).filter
        (msgMatches Platform.discord (computeCutoff off now timeRange)
          (extractKeywords "recent discord activity")) = [] := by
      rw [List.filter_eq_nil_iff]
      intro m hm
      rw [msgMatches_iff]
      rintro ⟨-, hc⟩
      cases hc with
      | inl he => exact absurd he (by decide)
      | inr hex =>
        obtain ⟨k, hk, hkinc⟩ := hex
        rw [hmem m hm k hk] at hkinc
        exact Bool.false_ne_true hkinc
    rw [hfilter]
    simp

def wMsgC5 : StoredMsg := { timestamp := 100, content := "hello world" }

def wHistC5 : ChanMap := [("c1", [wMsgC5])]

theorem claim_C5_witness :
    searchMessages wHistC5 Platform.discord (extractKeywords "recent discord activity")
      [] "recent" 0 100 = [] :=
  (claim_C5 wHistC5 [] "recent" 0 100 (by decide)).2.2

/-- Source line 1254. -/
def MAX_MESSAGES_TO_DISPLAY : Nat := 20

/-- One semantic emission of the result formatter (source lines 1252-1311):
each `response += ...` of the rendering loop becomes one item; the final
response string is the concatenation of the items' renderings after the
fixed results header. -/
inductive RenderItem where
  | platformHeader (p : Platform)
  | channelHeader (name : String)
  | messageLine (timestamp : Int) (body : String)
  | separator
  | truncationNote (shown total : Nat)
deriving DecidableEq, Repr

/-- `formatMessage` (source lines 1230-1244). -/
def formatMessage (p : Platform) (m : StoredMsg) : String :=
  match p with
  | Platform.telegram => "**" ++ m.senderName ++ "**: " ++ m.text
  | Platform.discord => "**" ++ m.authorName ++ "**: " ++ m.content
  | Platform.slack => "**" ++ m.userName ++ "**: " ++ m.text

/-- Stable insertion step for descending timestamp order: an element goes
before the first element whose timestamp is not larger, so earlier-arrived
messages stay first among equal timestamps. -/
def insertDesc (p : Platform) (m : StoredMsg) : List StoredMsg → List StoredMsg
  | [] => [m]
  | x :: xs =>
    if msgTimestamp p x ≤ msgTimestamp p m then m :: x :: xs
    else x :: insertDesc p m xs

/-- The sort of source lines 1272-1284: `[...].sort((a, b) => tsB - tsA)`,
a stable sort by timestamp descending (stability guaranteed by ES2019),
modelled as stable insertion sort. -/
def sortDesc (p : Platform) : List StoredMsg → List StoredMsg
  | [] => []
  | m :: ms => insertDesc p m (sortDesc p ms)

/-- Inner rendering loop over one platform's channels (source lines
1264-1301): break when the display budget is consumed, otherwise emit the
channel header, the first `20 - total` sorted messages, and a separator. -/
def renderChannels (p : Platform) (results : List ChannelResult) (total : Nat)
    (acc : List RenderItem) : Nat × List RenderItem :=
  match results with
  | [] => (total, acc)
  | result :: rest =>
    if MAX_MESSAGES_TO_DISPLAY ≤ total then (total, acc)
    else
      let messagesToShow :=
        (sortDesc p result.messages).take (MAX_MESSAGES_TO_DISPLAY - total)
      renderChannels p rest (total + messagesToShow.length)
        (acc ++ RenderItem.channelHeader result.channelName ::
          (messagesToShow.map (fun m =>
            RenderItem.messageLine (msgTimestamp p m) (formatMessage p m))
            ++ [RenderItem.separator]))

/-- Outer rendering loop over platforms (source lines 1257-1302). -/
def renderPlatforms (resultsByPlatform : List (Platform × List ChannelResult))
    (total : Nat) (acc : List RenderItem) : Nat × List RenderItem :=
  match resultsByPlatform with
  | [] => (total, acc)
  | (p, platformResults) :: rest =>
    if MAX_MESSAGES_TO_DISPLAY ≤ total then (total, acc)
    else
      let res := renderChannels p platformResults total
        (acc ++ [RenderItem.platformHeader p])
      renderPlatforms rest res.1 res.2

/-- Pre-truncation total of matching messages (source lines 1305-1307). -/
def totalMatching (resultsByPlatform : List (Platform × List ChannelResult)) : Nat :=
  (resultsByPlatform.flatMap (fun pr => pr.2.flatMap (fun r => r.messages))).length

/-- Full formatter item stream (source lines 1252-1311): the rendering
loops followed, when matches were truncated, by the trailing note. -/
def formatResults (resultsByPlatform : List (Platform × List ChannelResult)) :
    List RenderItem :=
  let res := renderPlatforms resultsByPlatform 0 []
  if totalMatching resultsByPlatform > res.1 then
    res.2 ++ [RenderItem.truncationNote res.1 (totalMatching resultsByPlatform)]
  else res.2

/-- Number of rendered message lines. -/
def countMsgs : List RenderItem → Nat
  | [] => 0
  | RenderItem.messageLine _ _ :: rest => countMsgs rest + 1
  | _ :: rest => countMsgs rest

/-- Check that every platform or channel header occurs at a point where
fewer than 20 message lines precede it (`c` counts the lines already
emitted before the scanned suffix). -/
def headersOk : Nat → List RenderItem → Bool
  | _, [] => true
  | c, RenderItem.platformHeader _ :: rest =>
    decide (c < MAX_MESSAGES_TO_DISPLAY) && headersOk c rest
  | c, RenderItem.channelHeader _ :: rest =>
    decide (c < MAX_MESSAGES_TO_DISPLAY) && headersOk c rest
  | c, RenderItem.messageLine _ _ :: rest => headersOk (c + 1) rest
  | c, RenderItem.separator :: rest => headersOk c rest
  | c, RenderItem.truncationNote _ _ :: rest => headersOk c rest

theorem countMsgs_append (l1 l2 : List RenderItem) :
    countMsgs (l1 ++ l2) = countMsgs l1 + countMsgs l2 := by
  induction l1 with
  | nil => simp [countMsgs]
  | cons a t ih =>
    cases a <;> simp [countMsgs, ih, Nat.add_assoc, Nat.add_comm, Nat.add_left_comm]

theorem countMsgs_mapLine (p : Platform) (ms : List StoredMsg) :
    countMsgs (ms.map (fun m =>
      RenderItem.messageLine (msgTimestamp p m) (formatMessage p m))) = ms.length := by
  induction ms with
  | nil => rfl
  | cons m t ih => simp [countMsgs, ih]

theorem headersOk_append (l1 l2 : List RenderItem) :
    ∀ c : Nat, headersOk c (l1 ++ l2)
      = (headersOk c l1 && headersOk (c + countMsgs l1) l2) := by
  induction l1 with
  | nil => intro c; simp [headersOk, countMsgs]
  | cons a t ih =>
    intro c
    cases a <;>
      simp [headersOk, countMsgs, ih, Bool.and_assoc, Nat.add_assoc,
        Nat.add_comm, Nat.add_left_comm]

theorem headersOk_mapLine (p : Platform) (ms : List StoredMsg) :
    ∀ c : Nat, headersOk c (ms.map (fun m =>
      RenderItem.messageLine (msgTimestamp p m) (formatMessage p m))) = true := by
  induction ms with
  | nil => intro c; rfl
  | cons m t ih => intro c; simp [headersOk]; exact ih (c + 1)

theorem renderChannels_inv (p : Platform) (results : List ChannelResult) :
    ∀ (total : Nat) (acc : List RenderItem),
      total ≤ MAX_MESSAGES_TO_DISPLAY →
      countMsgs acc = total →
      headersOk 0 acc = true →
      (renderChannels p results total acc).1 ≤ MAX_MESSAGES_TO_DISPLAY
      ∧ countMsgs (renderChannels p results total acc).2
          = (renderChannels p results total acc).1
      ∧ headersOk 0 (renderChannels p results total acc).2 = true := by
  induction results with
  | nil =>
    intro total acc h1 h2 h3
    exact ⟨h1, h2, h3⟩
  | cons r rest ih =>
    intro total acc h1 h2 h3
    by_cases hcap : MAX_MESSAGES_TO_DISPLAY ≤ total
    · simp only [renderChannels, if_pos hcap]
      exact ⟨h1, h2, h3⟩
    · simp only [renderChannels, if_neg hcap]
      have hL : ((sortDesc p r.messages).take
          (MAX_MESSAGES_TO_DISPLAY - total)).length
          ≤ MAX_MESSAGES_TO_DISPLAY - total := by
        rw [List.length_take]
        omega
      apply ih
      · omega
      · rw [countMsgs_append]
        simp only [countMsgs, countMsgs_append, countMsgs_mapLine, h2]
        omega
      · rw [headersOk_append, h3, Bool.true_and, h2]
        simp only [headersOk]
        rw [headersOk_append, headersOk_mapLine]
        simp only [headersOk, Bool.and_true, Bool.true_and]
        simp only [decide_eq_true_eq]
        omega

theorem renderPlatforms_inv (resultsByPlatform : List (Platform × List ChannelResult)) :
    ∀ (total : Nat) (acc : List RenderItem),
      total ≤ MAX_MESSAGES_TO_DISPLAY →
      countMsgs acc = total →
      headersOk 0 acc = true →
      (renderPlatforms resultsByPlatform total acc).1 ≤ MAX_MESSAGES_TO_DISPLAY
      ∧ countMsgs (renderPlatforms resultsByPlatform total acc).2
          = (renderPlatforms resultsByPlatform total acc).1
      ∧ headersOk 0 (renderPlatforms resultsByPlatform total acc).2 = true := by
  induction resultsByPlatform with
  | nil =>
    intro total acc h1 h2 h3
    exact ⟨h1, h2, h3⟩
  | cons e rest ih =>
    intro total acc h1 h2 h3
    obtain ⟨p, platformResults⟩ := e
    by_cases hcap : MAX_MESSAGES_TO_DISPLAY ≤ total
    · simp only [renderPlatforms, if_pos hcap]
      exact ⟨h1, h2, h3⟩
    · simp only [renderPlatforms, if_neg hcap]
      have hacc2 : countMsgs (acc ++ [RenderItem.platformHeader p]) = total := by
        rw [countMsgs_append, h2]
        rfl
      have hacc3 : headersOk 0 (acc ++ [RenderItem.platformHeader p]) = true := by
        rw [headersOk_append, h3, Bool.true_and, h2]
        simp only [headersOk, Bool.and_true]
        simp only [decide_eq_true_eq]
        omega
      have hc := renderChannels_inv p platformResults total
        (acc ++ [RenderItem.platformHeader p]) h1 hacc2 hacc3
      exact ih _ _ hc.1 hc.2.1 hc.2.2

/-- C2: global display cap.  For any aggregated search results, the
formatted item stream renders at most 20 message lines in total, never
emits a platform or channel header once 20 message lines have been
rendered, and - whenever the true matching total exceeds the rendered
count - ends with the trailing note carrying exactly the rendered count and
the true total. -/
theorem claim_C2 (resultsByPlatform : List (Platform × List ChannelResult)) :
    countMsgs (formatResults resultsByPlatform) ≤ MAX_MESSAGES_TO_DISPLAY
    ∧ headersOk 0 (formatResults resultsByPlatform) = true
    ∧ (totalMatching resultsByPlatform > countMsgs (formatResults resultsByPlatform) →
        (formatResults resultsByPlatform).getLast?
          = some (RenderItem.truncationNote
              (countMsgs (formatResults resultsByPlatform))
              (totalMatching resultsByPlatform))) := by
  have hinv := renderPlatforms_inv resultsByPlatform 0 [] (by decide) rfl rfl
  by_cases hnote : totalMatching resultsByPlatform
      > (renderPlatforms resultsByPlatform 0 []).1
  · have hfr : formatResults resultsByPlatform
        = (renderPlatforms resultsByPlatform 0 []).2
          ++ [RenderItem.truncationNote (renderPlatforms resultsByPlatform 0 []).1
              (totalMatching resultsByPlatform)] := by
      unfold formatResults
      rw [if_pos hnote]
    have hcount : countMsgs (formatResults resultsByPlatform)
        = (renderPlatforms resultsByPlatform 0 []).1 := by
      rw [hfr, countMsgs_append, hinv.2.1]
      rfl
    refine ⟨by rw [hcount]; exact hinv.1, ?_, ?_⟩
    · rw [hfr, headersOk_append, hinv.2.2, Bool.true_and]
      rfl
    · intro _
      rw [hcount, hfr, List.getLast?_concat]
  · have hfr : formatResults resultsByPlatform
        = (renderPlatforms resultsByPlatform 0 []).2 := by
      unfold formatResults
      rw [if_neg hnote]
    have hcount : countMsgs (formatResults resultsByPlatform)
        = (renderPlatforms resultsByPlatform 0 []).1 := by
      rw [hfr, hinv.2.1]
    refine ⟨by rw [hcount]; exact hinv.1, by rw [hfr]; exact hinv.2.2, ?_⟩
    intro hgt
    rw [hcount] at hgt
    exact absurd hgt hnote

def wRsC2 : List (Platform × List ChannelResult) :=
  [(Platform.discord,
    [{ messages := List.replicate 21 {}, channelId := "c1", channelName := "general" }])]

theorem claim_C2_witness :
    (formatResults wRsC2).getLast?
      = some (RenderItem.truncationNote (countMsgs (formatResults wRsC2))
          (totalMatching wRsC2)) :=
  (claim_C2 wRsC2).2.2 (by decide)

/-- `platform.charAt(0).toUpperCase() + platform.slice(1)` (source
line 1262) over the three platform keys. -/
def platformDisplayName : Platform → String
  | Platform.telegram => "Telegram"
  | Platform.discord => "Discord"
  | Platform.slack => "Slack"

/-- Exact text of each emission of the rendering loop (source lines
1262-1310); `fmtTs` stands for the locale-dependent
`Date.prototype.toLocaleString` (source lines 1247-1250). -/
def renderItemText (fmtTs : Int → String) : RenderItem → String
  | RenderItem.platformHeader p => "**" ++ platformDisplayName p ++ " Results:**\n\n"
  | RenderItem.channelHeader name => "**Channel: " ++ name ++ "**\n"
  | RenderItem.messageLine ts body => "[" ++ fmtTs ts ++ "] " ++ body ++ "\n\n"
  | RenderItem.separator => "\n"
  | RenderItem.truncationNote shown total =>
    "\n_Showing " ++ toString shown ++ " of " ++ toString total
      ++ " matching messages. Refine your search to see more specific results._"

/-- Response text of the match branch (source lines 1227-1311). -/
def renderResponse (fmtTs : Int → String) (query : String)
    (searchResults : List (Platform × List ChannelResult)) : String :=
  (formatResults searchResults).foldl (fun acc item => acc ++ renderItemText fmtTs item)
    ("📝 **Search Results for \"" ++ query ++ "\"**\n\n")

/-- Source lines 986-992. -/
def userNotFoundResponse : String := "User data not found. Please try again."

/-- Source lines 1001-1010. -/
def notConnectedResponse : String :=
  "You are not connected to any messaging platforms. Use /setup to get started."

/-- Source lines 1222-1225 (the template literal keeps the four indentation
spaces of line 1224). -/
def noMatchResponse (query : String) : String :=
  "I couldn't find any messages matching your query \"" ++ query
    ++ "\".\n    \nTry refining your search or make sure you're connected to the relevant platforms."

/-- Truthiness check of source lines 996-999. -/
def anyConnected (u : UserConfig) : Bool :=
  u.telegramConnected || u.discordConnected || u.slackConnected

/-- Fallback platform set (source lines 1036-1040): all connected
platforms, in declaration order. -/
def connectedFallback (u : UserConfig) : List Platform :=
  (if u.telegramConnected then [Platform.telegram] else [])
    ++ (if u.discordConnected then [Platform.discord] else [])
    ++ (if u.slackConnected then [Platform.slack] else [])

/-- `handleUserQuery` (source lines 979-1322), returning the response
text. -/
def handleUserQuery (fmtTs : Int → String) (users : Users) (query userId : String)
    (off now : Int) : String :=
  match users.lookup userId with
  | none => userNotFoundResponse
  | some user =>
    if anyConnected user = false then notConnectedResponse
    else
      let platforms0 := detectPlatforms query
      let platforms := if platforms0.length = 0 then connectedFallback user else platforms0
      let timeRange := detectTimeRange query
      let keywords := extractKeywords query
      let channelMentions := extractChannelMentions query
      let searchResults := platforms.filterMap (fun p =>
        let results := searchMessages (history user p) p keywords channelMentions
          timeRange off now
        if results.length > 0 then some (p, results) else none)
      if searchResults.length = 0 then noMatchResponse query
      else renderResponse fmtTs query searchResults

theorem searchMessages_nil (p : Platform) (kws hints : List String) (tr : String)
    (off now : Int) : searchMessages [] p kws hints tr off now = [] := by
  unfold searchMessages candidateChannels
  by_cases h : (hints.length > 0)
  · rw [if_pos h]
    rfl
  · rw [if_neg h]
    rfl

/-- C3 counterexample: a query from a user with zero connected platforms
(and an empty store) returns the fixed "not connected" guidance text, which
differs from the "couldn't find any messages" text the claim requires. -/
theorem claim_C3_counterexample :
    handleUserQuery (fun t => toString t) [("u1", {})] "hello" "u1" 0 0
        = notConnectedResponse
    ∧ notConnectedResponse ≠ noMatchResponse "hello" := by
  constructor
  · rfl
  · decide

/-- C3 (amended): for every query against an empty store issued by a user
with at least one connected platform, the response is the fixed
"couldn't find any messages" text echoing the query; a user with zero
connected platforms instead receives the fixed "not connected" text (see
the counterexample). -/
theorem claim_C3 (fmtTs : Int → String) (users : Users) (query userId : String)
    (off now : Int) (u : UserConfig)
    (hu : users.lookup userId = some u)
    (hconn : anyConnected u = true)
    (ht : u.telegramHistory = []) (hd : u.discordHistory = [])
    (hs : u.slackHistory = []) :
    handleUserQuery fmtTs users query userId off now = noMatchResponse query := by
  have hist_eq : ∀ p : Platform, history u p = [] := by
    intro p
    cases p
    · exact ht
    · exact hd
    · exact hs
  unfold handleUserQuery
  rw [hu]
  dsimp only
  have hcf : ¬ (anyConnected u = false) := by
    intro hx
    rw [hconn] at hx
    exact Bool.noConfusion hx
  rw [if_neg hcf]
  simp [hist_eq, searchMessages_nil]

def wUserC3 : UserConfig := { telegramConnected := true }

def wUsersC3 : Users := [("w", wUserC3)]

theorem claim_C3_witness :
    handleUserQuery (fun t => toString t) wUsersC3 "anything" "w" 3 5
      = noMatchResponse "anything" :=
  claim_C3 (fun t => toString t) wUsersC3 "anything" "w" 3 5 wUserC3 rfl rfl rfl rfl rfl
